import Mathlib

/-!
# Verification of the list-query / pagination / soft-delete CRUD layer

A shallow embedding of the generic list-query construction layer of the
motorcycle-club backend: the filter/sort query-string parsers
(`api/crud/utils.py`), the query builder (`apply_filters`,
`apply_sorting`), the pagination arithmetic performed by the routers
(`api/routers/agreements.py`), and the per-entity CRUD operations with
soft-delete semantics (`api/crud/agreements.py`, `api/crud/teams.py`).

The relational store is modelled as a list of rows; `session.get` on a
primary key is a first-match lookup by `id`.  Python `int` values are
modelled as `ℤ`, Python floor division `//` as `Int.fdiv`, dates and
timestamps as abstract integer codes, Python `dict` as an insertion-ordered
association list (`dictInsert` updates an existing key in place, otherwise
appends).  A Python function that can raise `HTTPException` is modelled in
`Except HTTPException`; an unhandled `ValueError` (tuple-unpacking failure
in the parsers) is modelled as `Option.none`.
-/

/-- A value held in a parsed filter dictionary.  Python's `dict[str, str]`
actually holds either the raw string or a coerced boolean. -/
inductive FVal where
  | str (s : String)
  | bool (b : Bool)
deriving DecidableEq, Repr

/-- A SQL-level column value, used when evaluating where-clauses against a
row.  `null` is SQL `NULL` (Python `None`). -/
inductive Value where
  | int (n : ℤ)
  | str (s : String)
  | bool (b : Bool)
  | null
deriving DecidableEq, Repr

/-- `fastapi.HTTPException(status_code, detail)`. -/
structure HTTPException where
  status_code : ℕ
  detail : String
deriving DecidableEq, Repr

/-- Python `str.split(sep)` for a one-character separator, over the
character sequence of the string: splits at every occurrence of `sep`,
keeping empty pieces (`"a,,b".split(',') == ['a','','b']`,
`"".split(',') == ['']`). -/
def pySplitAux (sep : Char) : List Char → List Char → List String
  | [], acc => [String.mk acc.reverse]
  | c :: cs, acc =>
    if c == sep then String.mk acc.reverse :: pySplitAux sep cs []
    else pySplitAux sep cs (c :: acc)

/-- Python `s.split(sep)` with a single-character separator. -/
def pySplit (s : String) (sep : Char) : List String :=
  pySplitAux sep s.data []

/-- Python `c in s` membership test for a character. -/
def pyContains (s : String) (c : Char) : Bool :=
  s.data.any (fun a => a == c)

/-- Python `s.lower()` (ASCII case folding suffices for this code base). -/
def pyLower (s : String) : String :=
  String.mk (s.data.map Char.toLower)

/-- Python `dict` assignment `d[k] = v` on an insertion-ordered dictionary:
an existing key keeps its position and gets the new value; a new key is
appended at the end. -/
def dictInsert {β : Type} (d : List (String × β)) (k : String) (v : β) :
    List (String × β) :=
  if d.any (fun p => p.1 == k) then
    d.map (fun p => if p.1 == k then (k, v) else p)
  else
    d ++ [(k, v)]

/-- `parse_filter_param` (`api/crud/utils.py`): split the query string on
`','`; a clause containing `'='` is split on `'='` and unpacked into
`field, value` (an unhandled `ValueError` — modelled as `none` — when the
split does not yield exactly two parts); a value spelling `true`/`false`
case-insensitively is coerced to a boolean; a bare clause maps the field to
the sentinel string `"item exist"`. -/
def parse_filter_param (query : String) : Option (List (String × FVal)) :=
  (pySplit query ',').foldlM
    (fun acc item =>
      if pyContains item '=' then
        match pySplit item '=' with
        | [field, value] =>
          let lv := pyLower value
          let v : FVal :=
            if lv == "true" || lv == "false" then .bool (lv == "true")
            else .str value
          some (dictInsert acc field v)
        | _ => none
      else
        some (dictInsert acc item (.str "item exist")))
    []

/-- `parse_sort_param` (`api/crud/utils.py`): like the filter parser but a
bare clause defaults the direction to `"asc"` and no boolean coercion is
performed. -/
def parse_sort_param (query : String) : Option (List (String × String)) :=
  (pySplit query ',').foldlM
    (fun acc item =>
      if pyContains item '=' then
        match pySplit item '=' with
        | [field, direction] => some (dictInsert acc field direction)
        | _ => none
      else
        some (dictInsert acc item "asc"))
    []

example : parse_filter_param "a=TRUE,b=x,c" =
    some [("a", .bool true), ("b", .str "x"), ("c", .str "item exist")] := by
  decide

example : parse_filter_param "a=b=c" = none := by decide

example : parse_sort_param "name=DESC,id" =
    some [("name", "DESC"), ("id", "asc")] := by decide

/-! ## Pagination arithmetic (`api/routers/agreements.py`, list endpoints)

The routers compute, from `skip`, `limit` and `total_records` (Python
ints), the pagination envelope.  Python's floor division `//` is
`Int.fdiv`; `if limit` tests integer truthiness (non-zero). -/

/-- The `pagination` object built by the list endpoints. -/
structure PaginationInfo where
  total_records : ℤ
  per_page : ℤ
  current_page : ℤ
  total_pages : ℤ
  next_page : Option ℤ
  prev_page : Option ℤ
deriving DecidableEq, Repr

/-- The pagination computation of `list_agreements`
(`api/routers/agreements.py` lines 39-42), shared verbatim by the other
list endpoints:
`current_page = (skip // limit) + 1 if limit else 1`,
`total_pages = (total_records + limit - 1) // limit if limit else 1`,
`next_page = current_page + 1 if current_page < total_pages else None`,
`prev_page = current_page - 1 if current_page > 1 else None`. -/
def paginationInfo (skip limit total_records : ℤ) : PaginationInfo :=
  let current_page := if limit ≠ 0 then Int.fdiv skip limit + 1 else 1
  let total_pages :=
    if limit ≠ 0 then Int.fdiv (total_records + limit - 1) limit else 1
  let next_page :=
    if current_page < total_pages then some (current_page + 1) else none
  let prev_page :=
    if 1 < current_page then some (current_page - 1) else none
  { total_records := total_records
    per_page := limit
    current_page := current_page
    total_pages := total_pages
    next_page := next_page
    prev_page := prev_page }

/-! ## Entities (`api/models/agreements.py`, `api/models/teams.py`)

Rows of the store.  Every model extends `Base`
(`api/models/utils/base.py`): `id` (nullable primary key), `deleted`
(default `false`), `deleted_at` (nullable, default `None`), `created_at`,
`updated_at`.  Dates and datetimes are abstract integer codes. -/

/-- The `Agreement` model. -/
structure Agreement where
  id : Option ℤ
  deleted : Bool
  deleted_at : Option ℤ
  created_at : ℤ
  updated_at : ℤ
  name : String
  description : Option String
  start_date : ℤ
  end_date : ℤ
  active : Bool
  company_id : ℤ
deriving DecidableEq, Repr

/-- The `Company` model. -/
structure Company where
  id : Option ℤ
  deleted : Bool
  deleted_at : Option ℤ
  created_at : ℤ
  updated_at : ℤ
  name : String
  contact_name : String
  contact_telephone : String
  contact_address : Option String
  location_id : ℤ
deriving DecidableEq, Repr

/-- The `Team` model. -/
structure Team where
  id : Option ℤ
  deleted : Bool
  deleted_at : Option ℤ
  created_at : ℤ
  updated_at : ℤ
  name : String
  location_id : ℤ
deriving DecidableEq, Repr

/-- Lift a nullable integer column to a SQL value. -/
def optInt : Option ℤ → Value
  | some n => .int n
  | none => .null

/-- Lift a nullable string column to a SQL value. -/
def optStr : Option String → Value
  | some s => .str s
  | none => .null

/-- Static metadata of a mapped entity class: the attribute names visible
on the class (columns and relationships — what `hasattr(model, field)`
recognises among the mapped attributes) and, for column attributes, the
accessor producing the column value of a row. -/
structure EntityMeta (α : Type) where
  attrs : List String
  col : String → Option (α → Value)

/-- `hasattr(model, field)` restricted to the mapped attributes. -/
def EntityMeta.hasattr {α : Type} (m : EntityMeta α) (f : String) : Bool :=
  m.attrs.contains f

/-- Metadata of the `Agreement` class: base columns, own columns, and the
`company` / `teams` relationships. -/
def agreementMeta : EntityMeta Agreement where
  attrs := ["id", "deleted", "deleted_at", "created_at", "updated_at",
            "name", "description", "start_date", "end_date", "active",
            "company_id", "company", "teams"]
  col f :=
    if f = "id" then some (fun a => optInt a.id)
    else if f = "deleted" then some (fun a => .bool a.deleted)
    else if f = "deleted_at" then some (fun a => optInt a.deleted_at)
    else if f = "created_at" then some (fun a => .int a.created_at)
    else if f = "updated_at" then some (fun a => .int a.updated_at)
    else if f = "name" then some (fun a => .str a.name)
    else if f = "description" then some (fun a => optStr a.description)
    else if f = "start_date" then some (fun a => .int a.start_date)
    else if f = "end_date" then some (fun a => .int a.end_date)
    else if f = "active" then some (fun a => .bool a.active)
    else if f = "company_id" then some (fun a => .int a.company_id)
    else none

/-- Metadata of the `Company` class. -/
def companyMeta : EntityMeta Company where
  attrs := ["id", "deleted", "deleted_at", "created_at", "updated_at",
            "name", "contact_name", "contact_telephone", "contact_address",
            "location_id", "agreements", "location"]
  col f :=
    if f = "id" then some (fun a => optInt a.id)
    else if f = "deleted" then some (fun a => .bool a.deleted)
    else if f = "deleted_at" then some (fun a => optInt a.deleted_at)
    else if f = "created_at" then some (fun a => .int a.created_at)
    else if f = "updated_at" then some (fun a => .int a.updated_at)
    else if f = "name" then some (fun a => .str a.name)
    else if f = "contact_name" then some (fun a => .str a.contact_name)
    else if f = "contact_telephone" then
      some (fun a => .str a.contact_telephone)
    else if f = "contact_address" then
      some (fun a => optStr a.contact_address)
    else if f = "location_id" then some (fun a => .int a.location_id)
    else none

/-! ## Query builder (`api/crud/utils.py`: `apply_filters`, `apply_sorting`)

A SQLAlchemy `select` is modelled as data: the conjunctive where-clauses,
the ORDER BY keys in priority order, and the OFFSET/LIMIT values.  The
builder functions walk the parsed dictionaries in input order, raising
`HTTPException(400, ...)` at the first field that is not an attribute of
the model class, and otherwise appending the corresponding clause. -/

/-- A single where-clause produced by `apply_filters`: either
`col.is_not(None)` (for the sentinel value) or `col == value`. -/
inductive Cond where
  | isNotNull (field : String)
  | eqVal (field : String) (v : FVal)
deriving DecidableEq, Repr

/-- A built `select` statement: where-clauses, ORDER BY keys
(field, descending?), OFFSET and LIMIT. -/
structure Query where
  conds : List Cond
  order : List (String × Bool)
  off : Option ℤ
  lim : Option ℤ
deriving DecidableEq, Repr

/-- `apply_filters(query, model, filters)`: for each `(field, value)` pair
in input order, raise `HTTPException(400, "Invalid filter field: " +
field)` unless the field is an attribute of the model; the sentinel value
`"item exist"` contributes an `is_not(None)` clause, any other value an
equality clause. -/
def apply_filters {α : Type} (query : Query) (model : EntityMeta α)
    (filters : List (String × FVal)) : Except HTTPException Query :=
  match filters with
  | [] => .ok query
  | (field, value) :: rest =>
    if model.hasattr field then
      let c : Cond :=
        if value = .str "item exist" then .isNotNull field
        else .eqVal field value
      apply_filters { query with conds := query.conds ++ [c] } model rest
    else
      .error ⟨400, "Invalid filter field: " ++ field⟩

/-- `apply_sorting(query, model, sort)`: same existence check with message
`"Invalid sort field: " + field`; a direction spelling `desc`
case-insensitively sorts descending, anything else ascending. -/
def apply_sorting {α : Type} (query : Query) (model : EntityMeta α)
    (sort : List (String × String)) : Except HTTPException Query :=
  match sort with
  | [] => .ok query
  | (field, direction) :: rest =>
    if model.hasattr field then
      let k := (field, pyLower direction == "desc")
      apply_sorting { query with order := query.order ++ [k] } model rest
    else
      .error ⟨400, "Invalid sort field: " ++ field⟩

/-! ## Executing a query against the store

`session.exec(query).all()` over the list-of-rows store: filter by the
conjunction of where-clauses, sort by the ORDER BY keys, then apply
OFFSET and LIMIT.  SQL equality with `NULL` never holds. -/

/-- SQL evaluation of `column == value` for a bound Python value: `NULL`
compares false with everything, otherwise values of matching type compare
structurally.  (Cross-type comparisons do not arise for the modelled
schema and are false.) -/
def valueEqFVal : Value → FVal → Bool
  | .str s, .str t => s == t
  | .bool b, .bool c => b == c
  | _, _ => false

/-- Evaluate one where-clause against a row.  A clause on a relationship
attribute (no column accessor) is outside the modelled store semantics and
holds of no row; no verified claim executes such a query. -/
def evalCond {α : Type} (m : EntityMeta α) (c : Cond) (row : α) : Bool :=
  match c with
  | .isNotNull f =>
    match m.col f with
    | some g => g row != .null
    | none => false
  | .eqVal f v =>
    match m.col f with
    | some g => valueEqFVal (g row) v
    | none => false

/-- An ordering on column values, for ORDER BY. -/
def valueRank : Value → ℕ
  | .null => 0
  | .int _ => 1
  | .str _ => 2
  | .bool _ => 3

/-- `a ≤ b` on column values: `NULL` first, then same-type comparison. -/
def valueLe (a b : Value) : Bool :=
  match a, b with
  | .int x, .int y => x ≤ y
  | .str x, .str y => x == y || x < y
  | .bool x, .bool y => !x || y
  | a, b => valueRank a ≤ valueRank b

/-- Lexicographic row comparison along the ORDER BY keys. -/
def rowLe {α : Type} (m : EntityMeta α) :
    List (String × Bool) → α → α → Bool
  | [], _, _ => true
  | (f, isDesc) :: rest, r1, r2 =>
    match m.col f with
    | none => rowLe m rest r1 r2
    | some g =>
      let a := if isDesc then g r2 else g r1
      let b := if isDesc then g r1 else g r2
      if a == b then rowLe m rest r1 r2 else valueLe a b

/-- Apply the ORDER BY keys (stable sort; no keys → store order). -/
def sortRows {α : Type} (m : EntityMeta α) (keys : List (String × Bool))
    (rows : List α) : List α :=
  match keys with
  | [] => rows
  | _ => rows.mergeSort (rowLe m keys)

/-- `session.exec(query).all()`: filter, sort, offset, limit.  A
non-positive OFFSET drops nothing; `LIMIT 0` returns no rows (negative
LIMIT/OFFSET values do not arise in the verified claims). -/
def execQuery {α : Type} (m : EntityMeta α) (db : List α) (q : Query) :
    List α :=
  let rows := db.filter (fun r => q.conds.all (fun c => evalCond m c r))
  let rows := sortRows m q.order rows
  let rows :=
    match q.off with
    | some n => rows.drop n.toNat
    | none => rows
  match q.lim with
  | some n => rows.take n.toNat
  | none => rows

/-! ## CRUD operations (`api/crud/agreements.py`, `api/crud/teams.py`)

`session.get(Model, pk)` is a primary-key lookup returning the row (soft
deleted or not) or `None`.  The store is a list of rows; a well-formed
store has pairwise-distinct primary keys. -/

/-- `session.get(Agreement, agreement_id)`. -/
def sessionGetAgreement (db : List Agreement) (i : ℤ) : Option Agreement :=
  db.find? (fun a => a.id == some i)

/-- `session.get(Team, team_id)`. -/
def sessionGetTeam (db : List Team) (i : ℤ) : Option Team :=
  db.find? (fun t => t.id == some i)

/-- `get_agreement_by_id` (`api/crud/agreements.py` lines 25-29):
`return agreement if agreement and not agreement.deleted else None`
(a model instance is always truthy). -/
def get_agreement_by_id (db : List Agreement) (agreement_id : ℤ) :
    Option Agreement :=
  match sessionGetAgreement db agreement_id with
  | some agreement => if !agreement.deleted then some agreement else none
  | none => none

/-- `get_team_by_id` (`api/crud/teams.py` lines 24-28), the same rule. -/
def get_team_by_id (db : List Team) (team_id : ℤ) : Option Team :=
  match sessionGetTeam db team_id with
  | some team => if !team.deleted then some team else none
  | none => none

/-- `AgreementUpdate` (`api/schemas/agreements.py`) after validation, with
pydantic's set/unset tracking: a `some` field was explicitly present in
the payload.  (`description` may be explicitly set to `None`; the other
columns are non-nullable at the store, so explicit nulls for them are
rejected before reaching the CRUD layer.) -/
structure AgreementUpdate where
  name : Option String := none
  description : Option (Option String) := none
  start_date : Option ℤ := none
  end_date : Option ℤ := none
  active : Option Bool := none
deriving DecidableEq, Repr

/-- `TeamUpdate` (`api/schemas/teams.py`): only `name` is updatable. -/
structure TeamUpdate where
  name : Option String := none
deriving DecidableEq, Repr

/-- The reflective assignment loop of `update_agreement`
(`api/crud/agreements.py` lines 80-81):
`for field, value in data.model_dump(exclude_unset=True).items():
setattr(agreement, field, value)` — only the fields present in the
payload are assigned. -/
def applyAgreementUpdate (a : Agreement) (d : AgreementUpdate) : Agreement :=
  { a with
    name := d.name.getD a.name
    description := d.description.getD a.description
    start_date := d.start_date.getD a.start_date
    end_date := d.end_date.getD a.end_date
    active := d.active.getD a.active }

/-- The same loop in `update_team` (`api/crud/teams.py`). -/
def applyTeamUpdate (t : Team) (d : TeamUpdate) : Team :=
  { t with name := d.name.getD t.name }

/-- Commit a mutated row back to the store: the row with the matching
primary key is replaced. -/
def commitRow (db : List Agreement) (i : ℤ) (a : Agreement) :
    List Agreement :=
  db.map (fun r => if r.id == some i then a else r)

/-- `update_agreement` (`api/crud/agreements.py` lines 73-84): fetch by
primary key with `session.get` — note: with no check of the `deleted`
flag — apply the payload fields, commit, and return the row; `None` is
returned (and nothing committed) only when no row has the id.  Result:
(store after the call, returned value). -/
def update_agreement (db : List Agreement) (agreement_id : ℤ)
    (data : AgreementUpdate) : List Agreement × Option Agreement :=
  match sessionGetAgreement db agreement_id with
  | some agreement =>
    let updated := applyAgreementUpdate agreement data
    (commitRow db agreement_id updated, some updated)
  | none => (db, none)

/-- `update_team` (`api/crud/teams.py` lines 70-79), the same shape. -/
def update_team (db : List Team) (team_id : ℤ) (data : TeamUpdate) :
    List Team × Option Team :=
  match sessionGetTeam db team_id with
  | some team =>
    let updated := applyTeamUpdate team data
    (db.map (fun r => if r.id == some team_id then updated else r),
     some updated)
  | none => (db, none)

/-- `delete_agreement` (`api/crud/agreements.py` lines 88-101): fetch by
primary key; `hard` physically removes the row, the soft path assigns
`agreement.deleted = True` and commits — no other field is touched (in
particular `deleted_at` is never assigned anywhere in the code base). -/
def delete_agreement (db : List Agreement) (agreement_id : ℤ)
    (hard : Bool) : List Agreement :=
  match sessionGetAgreement db agreement_id with
  | some _ =>
    if hard then db.filter (fun r => !(r.id == some agreement_id))
    else
      db.map (fun r =>
        if r.id == some agreement_id then { r with deleted := true } else r)
  | none => db

/-- `list_agreements` (`api/crud/agreements.py` lines 43-61): base query
`select(Agreement).where(Agreement.deleted == False)`; `if filter:` and
`if sort:` test dict truthiness (non-`None` and non-empty); `if skip:` and
`if limit:` test integer truthiness (non-`None` and non-zero). -/
def list_agreements_crud (db : List Agreement) (skip limit : Option ℤ)
    (sort : Option (List (String × String)))
    (filter : Option (List (String × FVal))) :
    Except HTTPException (List Agreement) := do
  let query : Query :=
    { conds := [.eqVal "deleted" (.bool false)], order := [],
      off := none, lim := none }
  let query ←
    match filter with
    | some fs =>
      if fs.isEmpty then pure query else apply_filters query agreementMeta fs
    | none => pure query
  let query ←
    match sort with
    | some ss =>
      if ss.isEmpty then pure query else apply_sorting query agreementMeta ss
    | none => pure query
  let query :=
    match skip with
    | some n => if n ≠ 0 then { query with off := some n } else query
    | none => query
  let query :=
    match limit with
    | some n => if n ≠ 0 then { query with lim := some n } else query
    | none => query
  return execQuery agreementMeta db query

/-- `list_companies` (`api/crud/agreements.py` lines 169-187): identical
except that pagination uses `if skip is not None:` and
`if limit is not None:` — a present zero is applied as `OFFSET 0` /
`LIMIT 0` instead of being skipped. -/
def list_companies_crud (db : List Company) (skip limit : Option ℤ)
    (sort : Option (List (String × String)))
    (filter : Option (List (String × FVal))) :
    Except HTTPException (List Company) := do
  let query : Query :=
    { conds := [.eqVal "deleted" (.bool false)], order := [],
      off := none, lim := none }
  let query ←
    match filter with
    | some fs =>
      if fs.isEmpty then pure query else apply_filters query companyMeta fs
    | none => pure query
  let query ←
    match sort with
    | some ss =>
      if ss.isEmpty then pure query else apply_sorting query companyMeta ss
    | none => pure query
  let query :=
    match skip with
    | some n => { query with off := some n }
    | none => query
  let query :=
    match limit with
    | some n => { query with lim := some n }
    | none => query
  return execQuery companyMeta db query

/-! ## Specification-side definitions and concrete sample data -/

/-- Spec §4.1, transcribed: a filter clause is `field=value` or bare
`field`; a value spelling `"true"`/`"false"` case-insensitively is coerced
to a boolean; a bare clause (no `'='`) stands for the sentinel condition
`"item exist"`.  This definition follows the spec's words and is compared
against `parse_filter_param` in the refinement theorem for C8. -/
def filterClauseSpec (item : String) : String × FVal :=
  if pyContains item '=' then
    match pySplit item '=' with
    | [field, value] =>
      (field,
        if pyLower value == "true" then .bool true
        else if pyLower value == "false" then .bool false
        else .str value)
    | _ => (item, .str "item exist")
  else
    (item, .str "item exist")

/-- Insert the clauses of an ordered mapping one by one, in clause order
(how Python builds a dict from a sequence of assignments). -/
def orderedMapOf {β : Type} (ps : List (String × β)) : List (String × β) :=
  ps.foldl (fun acc p => dictInsert acc p.1 p.2) []

/-- The first field of a parsed mapping, in input order, that is not an
attribute of the entity. -/
def firstInvalidField {α β : Type} (m : EntityMeta α)
    (pairs : List (String × β)) : Option String :=
  (pairs.find? (fun p => !(m.hasattr p.1))).map Prod.fst

/-- A live agreement row, as the store would hold it after creation. -/
def sampleAgreement : Agreement :=
  { id := some 1, deleted := false, deleted_at := none, created_at := 10,
    updated_at := 10, name := "Valid agreement", description := none,
    start_date := 100, end_date := 200, active := true, company_id := 2 }

/-- The same row after a soft delete (only the flag flipped). -/
def sampleAgreementDeleted : Agreement :=
  { sampleAgreement with deleted := true }

/-- A second live agreement row. -/
def sampleAgreement2 : Agreement :=
  { id := some 2, deleted := false, deleted_at := none, created_at := 11,
    updated_at := 11, name := "Other agreement", description := some "x",
    start_date := 150, end_date := 250, active := false, company_id := 3 }

/-- A live team row. -/
def sampleTeam : Team :=
  { id := some 1, deleted := false, deleted_at := none, created_at := 10,
    updated_at := 10, name := "Central team", location_id := 3 }

/-- A payload renaming an agreement and nothing else. -/
def sampleRename : AgreementUpdate := { name := some "New name" }

/-! ## Theorems -/

/-- Primary-key lookup on a store with pairwise-distinct keys finds a row
exactly when it is a member carrying that key. -/
theorem find?_id_eq_some_iff {α : Type} (idOf : α → Option ℤ)
    (db : List α) (hwf : (db.map idOf).Nodup) (i : ℤ) (r : α) :
    db.find? (fun x => idOf x == some i) = some r ↔
      r ∈ db ∧ idOf r = some i := by
  induction db with
  | nil => simp
  | cons a l ih =>
    rw [List.map_cons, List.nodup_cons] at hwf
    by_cases h : idOf a = some i
    · rw [List.find?_cons_of_pos _ (by simp [h])]
      constructor
      · intro hs
        injection hs with hs
        subst hs
        exact ⟨List.mem_cons_self _ _, h⟩
      · rintro ⟨hm, hr⟩
        rcases List.mem_cons.mp hm with heq | hml
        · rw [heq]
        · exfalso
          apply hwf.1
          rw [h, ← hr]
          exact List.mem_map_of_mem idOf hml
    · rw [List.find?_cons_of_neg _ (by simp [h]), ih hwf.2]
      constructor
      · rintro ⟨hm, hr⟩
        exact ⟨List.mem_cons_of_mem a hm, hr⟩
      · rintro ⟨hm, hr⟩
        rcases List.mem_cons.mp hm with heq | hml
        · exact absurd (heq ▸ hr) h
        · exact ⟨hml, hr⟩

/-- The `x if x and not x.deleted else None` pattern, as a characterization
of its result. -/
theorem activeFilter_some_iff {α : Type} (o : Option α) (del : α → Bool)
    (r : α) :
    (match o with
      | some a => if !del a then some a else none
      | none => none) = some r ↔ o = some r ∧ del r = false := by
  cases o with
  | none => simp
  | some a =>
    constructor
    · intro h
      change (if (!del a) = true then some a else none) = some r at h
      by_cases hd : del a
      · rw [if_neg (by simp [hd])] at h
        cases h
      · rw [if_pos (by simp [hd])] at h
        injection h with h
        subst h
        exact ⟨rfl, by simpa using hd⟩
    · rintro ⟨h1, h2⟩
      injection h1 with h1
      subst h1
      change (if (!del a) = true then some a else none) = some a
      rw [if_pos (by simp [h2])]

/-- `get_agreement_by_id` characterized through `session.get`. -/
theorem get_agreement_by_id_some_iff (db : List Agreement) (i : ℤ)
    (r : Agreement) :
    get_agreement_by_id db i = some r ↔
      sessionGetAgreement db i = some r ∧ r.deleted = false := by
  unfold get_agreement_by_id
  cases h : sessionGetAgreement db i with
  | none => simp
  | some a =>
    constructor
    · intro hres
      change (if (!a.deleted) = true then some a else none) = some r at hres
      by_cases hd : a.deleted
      · rw [if_neg (by simp [hd])] at hres
        cases hres
      · rw [if_pos (by simp [hd])] at hres
        injection hres with hres
        subst hres
        exact ⟨rfl, by simpa using hd⟩
    · rintro ⟨h1, h2⟩
      injection h1 with h1
      subst h1
      change (if (!a.deleted) = true then some a else none) = some a
      rw [if_pos (by simp [h2])]

/-- `get_team_by_id` characterized through `session.get`. -/
theorem get_team_by_id_some_iff (db : List Team) (j : ℤ) (t : Team) :
    get_team_by_id db j = some t ↔
      sessionGetTeam db j = some t ∧ t.deleted = false := by
  unfold get_team_by_id
  cases h : sessionGetTeam db j with
  | none => simp
  | some a =>
    constructor
    · intro hres
      change (if (!a.deleted) = true then some a else none) = some t at hres
      by_cases hd : a.deleted
      · rw [if_neg (by simp [hd])] at hres
        cases hres
      · rw [if_pos (by simp [hd])] at hres
        injection hres with hres
        subst hres
        exact ⟨rfl, by simpa using hd⟩
    · rintro ⟨h1, h2⟩
      injection h1 with h1
      subst h1
      change (if (!a.deleted) = true then some a else none) = some a
      rw [if_pos (by simp [h2])]

/-- C4: For every entity module and every id, `get_by_id` returns the
entity if and only if a row with that id exists and has `deleted = false`;
in every other case it returns `None`.  Shown for the two cited modules,
`get_agreement_by_id` and `get_team_by_id`, over any well-formed store
(pairwise-distinct primary keys). -/
theorem get_by_id_active_iff (dbA : List Agreement) (dbT : List Team)
    (i j : ℤ) (r : Agreement) (t : Team)
    (hA : (dbA.map Agreement.id).Nodup) (hT : (dbT.map Team.id).Nodup) :
    (get_agreement_by_id dbA i = some r ↔
      r ∈ dbA ∧ r.id = some i ∧ r.deleted = false) ∧
    (get_team_by_id dbT j = some t ↔
      t ∈ dbT ∧ t.id = some j ∧ t.deleted = false) := by
  constructor
  · rw [get_agreement_by_id_some_iff, sessionGetAgreement,
      find?_id_eq_some_iff Agreement.id dbA hA i r, and_assoc]
  · rw [get_team_by_id_some_iff, sessionGetTeam,
      find?_id_eq_some_iff Team.id dbT hT j t, and_assoc]

/-- Witness for C4 at concrete one-row stores. -/
theorem get_by_id_active_iff_witness :
    (([sampleAgreement].map Agreement.id).Nodup ∧
      ([sampleTeam].map Team.id).Nodup) ∧
    (get_agreement_by_id [sampleAgreement] 1 = some sampleAgreement ↔
      sampleAgreement ∈ [sampleAgreement] ∧
        sampleAgreement.id = some 1 ∧ sampleAgreement.deleted = false) :=
  ⟨⟨by decide, by decide⟩,
    (get_by_id_active_iff [sampleAgreement] [sampleTeam] 1 1
      sampleAgreement sampleTeam (by decide) (by decide)).1⟩

/-- Marking the row with key `i` as deleted commutes with the primary-key
lookup: the lookup afterwards returns the marked row. -/
theorem sessionGet_mark_deleted (db : List Agreement) (i : ℤ)
    (a : Agreement) (h : sessionGetAgreement db i = some a) :
    sessionGetAgreement
      (db.map (fun r =>
        if r.id == some i then { r with deleted := true } else r)) i =
      some { a with deleted := true } := by
  unfold sessionGetAgreement at *
  induction db with
  | nil => simp at h
  | cons x l ih =>
    by_cases hx : (x.id == some i) = true
    · simp only [List.find?, hx] at h
      injection h with h
      subst h
      rw [List.map_cons, if_pos hx]
      simp [List.find?, hx]
    · have hx' : (x.id == some i) = false := by simpa using hx
      simp only [List.find?, hx'] at h
      rw [List.map_cons, if_neg hx]
      simp only [List.find?, hx']
      exact ih h

/-- C3 (amended): for every id resolving to an existing row, the
soft-delete path sets `deleted` to `true` and leaves `deleted_at`
unchanged (the code never assigns `deleted_at`, so it keeps its creation
default `None`); afterwards `get_by_id` reports not-found while the row
remains retrievable by a primary-key lookup that ignores the `deleted`
filter (`session.get`). -/
theorem soft_delete_agreement (db : List Agreement) (i : ℤ) (a : Agreement)
    (h : sessionGetAgreement db i = some a) :
    sessionGetAgreement (delete_agreement db i false) i =
      some { a with deleted := true } ∧
    get_agreement_by_id (delete_agreement db i false) i = none ∧
    ({ a with deleted := true } : Agreement).deleted_at = a.deleted_at := by
  have hdel : delete_agreement db i false =
      db.map (fun r =>
        if r.id == some i then { r with deleted := true } else r) := by
    unfold delete_agreement
    rw [h]
    rfl
  have hmark := sessionGet_mark_deleted db i a h
  refine ⟨by rw [hdel]; exact hmark, ?_, rfl⟩
  unfold get_agreement_by_id
  rw [hdel, hmark]
  rfl

/-- Witness for C3 at a concrete one-row store holding a live agreement. -/
theorem soft_delete_agreement_witness :
    sessionGetAgreement [sampleAgreement] 1 = some sampleAgreement ∧
    (sessionGetAgreement (delete_agreement [sampleAgreement] 1 false) 1 =
        some { sampleAgreement with deleted := true } ∧
      get_agreement_by_id (delete_agreement [sampleAgreement] 1 false) 1 =
        none ∧
      ({ sampleAgreement with deleted := true } : Agreement).deleted_at =
        sampleAgreement.deleted_at) :=
  ⟨by decide, soft_delete_agreement [sampleAgreement] 1 sampleAgreement
    (by decide)⟩

/-- Counterexample to C3 as stated: soft-deleting agreement 1 of a
one-row store flips `deleted` but does NOT set `deleted_at` to any
deletion timestamp — it remains `None`, because no code path ever assigns
`deleted_at`. -/
theorem soft_delete_no_timestamp_counterexample :
    (sessionGetAgreement (delete_agreement [sampleAgreement] 1 false)
      1).map Agreement.deleted = some true ∧
    (sessionGetAgreement (delete_agreement [sampleAgreement] 1 false)
      1).map Agreement.deleted_at = some none := by
  decide

/-- C5 (amended): the CRUD update operations fetch the row with
`session.get`, which does not check the `deleted` flag: update no-ops and
returns `None` exactly when the id resolves to no row at all; when the id
resolves to a row — active or soft-deleted alike — the payload is applied
and the row returned.  Shown for the two cited modules. -/
theorem update_no_active_check (db : List Agreement) (dbT : List Team)
    (i j : ℤ) (d : AgreementUpdate) (e : TeamUpdate) :
    (sessionGetAgreement db i = none → update_agreement db i d = (db, none)) ∧
    (∀ a, sessionGetAgreement db i = some a →
      (update_agreement db i d).2 = some (applyAgreementUpdate a d)) ∧
    (sessionGetTeam dbT j = none → update_team dbT j e = (dbT, none)) ∧
    (∀ t, sessionGetTeam dbT j = some t →
      (update_team dbT j e).2 = some (applyTeamUpdate t e)) := by
  refine ⟨fun h => ?_, fun a h => ?_, fun h => ?_, fun t h => ?_⟩
  · unfold update_agreement
    rw [h]
  · unfold update_agreement
    rw [h]
  · unfold update_team
    rw [h]
  · unfold update_team
    rw [h]

/-- Witness for C5 on concrete stores: an absent id no-ops; a present
(soft-deleted) id gets the payload applied. -/
theorem update_no_active_check_witness :
    (sessionGetAgreement [] 5 = none ∧
      update_agreement [] 5 sampleRename = ([], none)) ∧
    (sessionGetAgreement [sampleAgreementDeleted] 1 =
        some sampleAgreementDeleted ∧
      (update_agreement [sampleAgreementDeleted] 1 sampleRename).2 =
        some (applyAgreementUpdate sampleAgreementDeleted sampleRename)) :=
  ⟨⟨by decide, (update_no_active_check [] [] 5 5 sampleRename {}).1
      (by decide)⟩,
    ⟨by decide, (update_no_active_check [sampleAgreementDeleted] [] 1 5
        sampleRename {}).2.1 sampleAgreementDeleted (by decide)⟩⟩

/-- Counterexample to C5 as stated: agreement 1 is soft-deleted, so its id
does not resolve to an active row; the claim requires the update to
perform no state change and return not-found, but the code renames the
row and returns it. -/
theorem update_on_soft_deleted_counterexample :
    sampleAgreementDeleted.deleted = true ∧
    update_agreement [sampleAgreementDeleted] 1 sampleRename ≠
      ([sampleAgreementDeleted], none) ∧
    (update_agreement [sampleAgreementDeleted] 1 sampleRename).2.map
      Agreement.name = some "New name" := by
  decide

/-- C7: partial-update frame property.  For every active row and every
payload, the reflective assignment loop assigns exactly the explicitly-set
payload fields; `id`, `created_at`, `deleted`, `deleted_at` and every
entity field absent from the payload keep their prior values. -/
theorem update_agreement_frame (db : List Agreement) (i : ℤ)
    (d : AgreementUpdate) (a : Agreement)
    (hget : sessionGetAgreement db i = some a)
    (_hactive : a.deleted = false) :
    ∃ r, (update_agreement db i d).2 = some r ∧
      (∀ v, d.name = some v → r.name = v) ∧
      (d.name = none → r.name = a.name) ∧
      (∀ v, d.description = some v → r.description = v) ∧
      (d.description = none → r.description = a.description) ∧
      (∀ v, d.start_date = some v → r.start_date = v) ∧
      (d.start_date = none → r.start_date = a.start_date) ∧
      (∀ v, d.end_date = some v → r.end_date = v) ∧
      (d.end_date = none → r.end_date = a.end_date) ∧
      (∀ v, d.active = some v → r.active = v) ∧
      (d.active = none → r.active = a.active) ∧
      r.id = a.id ∧ r.created_at = a.created_at ∧
      r.deleted = a.deleted ∧ r.deleted_at = a.deleted_at := by
  refine ⟨applyAgreementUpdate a d, ?_, ?_, ?_, ?_, ?_, ?_, ?_, ?_, ?_,
    ?_, ?_, rfl, rfl, rfl, rfl⟩
  · unfold update_agreement
    rw [hget]
  · intro v hv
    simp [applyAgreementUpdate, hv]
  · intro hv
    simp [applyAgreementUpdate, hv]
  · intro v hv
    simp [applyAgreementUpdate, hv]
  · intro hv
    simp [applyAgreementUpdate, hv]
  · intro v hv
    simp [applyAgreementUpdate, hv]
  · intro hv
    simp [applyAgreementUpdate, hv]
  · intro v hv
    simp [applyAgreementUpdate, hv]
  · intro hv
    simp [applyAgreementUpdate, hv]
  · intro v hv
    simp [applyAgreementUpdate, hv]
  · intro hv
    simp [applyAgreementUpdate, hv]

/-- Witness for C7: renaming the live sample agreement changes `name` and
nothing else. -/
theorem update_agreement_frame_witness :
    (sessionGetAgreement [sampleAgreement] 1 = some sampleAgreement ∧
      sampleAgreement.deleted = false) ∧
    ∃ r, (update_agreement [sampleAgreement] 1 sampleRename).2 = some r ∧
      (∀ v, sampleRename.name = some v → r.name = v) ∧
      (sampleRename.name = none → r.name = sampleAgreement.name) ∧
      (∀ v, sampleRename.description = some v → r.description = v) ∧
      (sampleRename.description = none →
        r.description = sampleAgreement.description) ∧
      (∀ v, sampleRename.start_date = some v → r.start_date = v) ∧
      (sampleRename.start_date = none →
        r.start_date = sampleAgreement.start_date) ∧
      (∀ v, sampleRename.end_date = some v → r.end_date = v) ∧
      (sampleRename.end_date = none →
        r.end_date = sampleAgreement.end_date) ∧
      (∀ v, sampleRename.active = some v → r.active = v) ∧
      (sampleRename.active = none → r.active = sampleAgreement.active) ∧
      r.id = sampleAgreement.id ∧ r.created_at = sampleAgreement.created_at ∧
      r.deleted = sampleAgreement.deleted ∧
      r.deleted_at = sampleAgreement.deleted_at :=
  ⟨⟨by decide, by decide⟩,
    update_agreement_frame [sampleAgreement] 1 sampleRename sampleAgreement
      (by decide) (by decide)⟩

/-- `apply_filters` fails at the first field of the mapping, in input
order, that is not an attribute of the model — whatever query it started
from. -/
theorem apply_filters_error {α : Type} (m : EntityMeta α)
    (fs : List (String × FVal)) (f : String)
    (h : firstInvalidField m fs = some f) (q : Query) :
    apply_filters q m fs = .error ⟨400, "Invalid filter field: " ++ f⟩ := by
  induction fs generalizing q with
  | nil => simp [firstInvalidField] at h
  | cons p rest ih =>
    obtain ⟨fld, v⟩ := p
    by_cases ha : m.hasattr fld = true
    · unfold firstInvalidField at h
      rw [List.find?_cons_of_neg _ (by simp [ha])] at h
      simp only [apply_filters, ha, if_true]
      exact ih h _
    · have ha' : m.hasattr fld = false := by simpa using ha
      unfold firstInvalidField at h
      rw [List.find?_cons_of_pos _ (by simp [ha'])] at h
      simp only [Option.map_some', Option.some.injEq] at h
      subst h
      simp only [apply_filters, ha', Bool.false_eq_true, if_false]

/-- `apply_sorting` fails at the first field of the mapping, in input
order, that is not an attribute of the model. -/
theorem apply_sorting_error {α : Type} (m : EntityMeta α)
    (ss : List (String × String)) (g : String)
    (h : firstInvalidField m ss = some g) (q : Query) :
    apply_sorting q m ss = .error ⟨400, "Invalid sort field: " ++ g⟩ := by
  induction ss generalizing q with
  | nil => simp [firstInvalidField] at h
  | cons p rest ih =>
    obtain ⟨fld, dir⟩ := p
    by_cases ha : m.hasattr fld = true
    · unfold firstInvalidField at h
      rw [List.find?_cons_of_neg _ (by simp [ha])] at h
      simp only [apply_sorting, ha, if_true]
      exact ih h _
    · have ha' : m.hasattr fld = false := by simpa using ha
      unfold firstInvalidField at h
      rw [List.find?_cons_of_pos _ (by simp [ha'])] at h
      simp only [Option.map_some', Option.some.injEq] at h
      subst h
      simp only [apply_sorting, ha', Bool.false_eq_true, if_false]

/-- A filter mapping with an invalid field makes `list_agreements` fail
before touching the store: the result is the builder's 400 error for every
store content. -/
theorem list_agreements_filter_error (db : List Agreement)
    (skip limit : Option ℤ) (s : Option (List (String × String)))
    (fs : List (String × FVal)) (f : String)
    (h : firstInvalidField agreementMeta fs = some f) :
    list_agreements_crud db skip limit s (some fs) =
      .error ⟨400, "Invalid filter field: " ++ f⟩ := by
  have hne : fs.isEmpty = false := by
    cases fs with
    | nil => simp [firstInvalidField] at h
    | cons a l => rfl
  simp [list_agreements_crud, hne,
    apply_filters_error agreementMeta fs f h, Bind.bind, Except.bind]

/-- A sort mapping with an invalid field (and no filter) likewise fails
before touching the store. -/
theorem list_agreements_sort_error (db : List Agreement)
    (skip limit : Option ℤ) (ss : List (String × String)) (g : String)
    (h : firstInvalidField agreementMeta ss = some g) :
    list_agreements_crud db skip limit (some ss) none =
      .error ⟨400, "Invalid sort field: " ++ g⟩ := by
  have hne : ss.isEmpty = false := by
    cases ss with
    | nil => simp [firstInvalidField] at h
    | cons a l => rfl
  simp [list_agreements_crud, hne,
    apply_sorting_error agreementMeta ss g h, Bind.bind, Except.bind,
    Pure.pure]
  rfl

/-- C2: for every filter mapping and sort mapping over any target entity,
a field that is not an attribute of the entity makes the query builder
fail with an HTTP 400 error naming that field, the failure happens at the
first invalid field in input order (`firstInvalidField` is the first such
field), and no query is executed against the store — witnessed by the
list operation returning the same error for every store content, without
reading it. -/
theorem query_builder_rejects_unknown_fields {α : Type}
    (m : EntityMeta α) (fs : List (String × FVal))
    (ss : List (String × String)) (f g : String) :
    (firstInvalidField m fs = some f → ∀ q,
      apply_filters q m fs = .error ⟨400, "Invalid filter field: " ++ f⟩) ∧
    (firstInvalidField m ss = some g → ∀ q,
      apply_sorting q m ss = .error ⟨400, "Invalid sort field: " ++ g⟩) ∧
    (firstInvalidField agreementMeta fs = some f →
      ∀ db skip limit s, list_agreements_crud db skip limit s (some fs) =
        .error ⟨400, "Invalid filter field: " ++ f⟩) ∧
    (firstInvalidField agreementMeta ss = some g →
      ∀ db skip limit, list_agreements_crud db skip limit (some ss) none =
        .error ⟨400, "Invalid sort field: " ++ g⟩) :=
  ⟨fun h q => apply_filters_error m fs f h q,
   fun h q => apply_sorting_error m ss g h q,
   fun h db skip limit s => list_agreements_filter_error db skip limit s fs f h,
   fun h db skip limit => list_agreements_sort_error db skip limit ss g h⟩

/-- Witness for C2: the spec's own end-to-end example `bogus_field` is
rejected with the 400 error naming it, on an empty and on a non-empty
store alike. -/
theorem query_builder_rejects_unknown_fields_witness :
    (firstInvalidField agreementMeta [("bogus_field", FVal.str "1")] =
      some "bogus_field") ∧
    apply_filters
        { conds := [], order := [], off := none, lim := none }
        agreementMeta [("bogus_field", FVal.str "1")] =
      .error ⟨400, "Invalid filter field: bogus_field"⟩ ∧
    list_agreements_crud [sampleAgreement] (some 0) (some 100) none
        (some [("bogus_field", FVal.str "1")]) =
      .error ⟨400, "Invalid filter field: bogus_field"⟩ ∧
    list_agreements_crud [] none none
        (some [("created_at", "desc"), ("bogus_sort", "asc")]) none =
      .error ⟨400, "Invalid sort field: bogus_sort"⟩ :=
  ⟨by decide,
   (query_builder_rejects_unknown_fields agreementMeta
      [("bogus_field", FVal.str "1")] [("created_at", "desc"),
        ("bogus_sort", "asc")] "bogus_field" "bogus_sort").1 (by decide) _,
   (query_builder_rejects_unknown_fields agreementMeta
      [("bogus_field", FVal.str "1")] [("created_at", "desc"),
        ("bogus_sort", "asc")] "bogus_field" "bogus_sort").2.2.1 (by decide)
      [sampleAgreement] (some 0) (some 100) none,
   (query_builder_rejects_unknown_fields agreementMeta
      [("bogus_field", FVal.str "1")] [("created_at", "desc"),
        ("bogus_sort", "asc")] "bogus_field" "bogus_sort").2.2.2 (by decide)
      [] none none⟩

/-- The base where-clause `Agreement.deleted == False` holds of exactly
the non-soft-deleted rows. -/
theorem evalCond_deleted (a : Agreement) :
    evalCond agreementMeta (Cond.eqVal "deleted" (FVal.bool false)) a =
      !a.deleted := by
  cases h : a.deleted <;> simp [evalCond, agreementMeta, valueEqFVal, h]

/-- C10: with `limit = 0` (and `skip = 0`) the two CRUD list functions
diverge: `list_agreements` tests `if limit:` (integer truthiness), so a
zero limit adds no LIMIT clause and every non-deleted row is returned,
while `list_companies` tests `if limit is not None:`, so the same call
applies `LIMIT 0` and returns no rows at all — whatever the stores hold. -/
theorem falsy_limit_divergence (dbA : List Agreement) (dbC : List Company) :
    list_agreements_crud dbA (some 0) (some 0) none none =
      .ok (dbA.filter (fun a => !a.deleted)) ∧
    list_companies_crud dbC (some 0) (some 0) none none = .ok [] := by
  constructor
  · show Except.ok (dbA.filter
        (fun r => [Cond.eqVal "deleted" (FVal.bool false)].all
          (fun c => evalCond agreementMeta c r))) = _
    congr 1
    apply List.filter_congr
    intro a _
    simp [evalCond_deleted a]
  · rfl

/-- For a positive divisor, integer (euclidean) division is the rational
floor. -/
theorem floor_intCast_div (n d : ℤ) (hd : 0 < d) :
    ⌊(n : ℚ) / (d : ℚ)⌋ = n / d := by
  have hd' : (0 : ℚ) < (d : ℚ) := by exact_mod_cast hd
  have hdq : d * (n / d) + n % d = n := Int.ediv_add_emod n d
  have h0 : 0 ≤ n % d := Int.emod_nonneg n (ne_of_gt hd)
  have h1 : n % d < d := Int.emod_lt_of_pos n hd
  have hq1 : (n / d) * d ≤ n := by linarith
  have hq2 : n < (n / d + 1) * d := by linarith
  rw [Int.floor_eq_iff]
  constructor
  · rw [le_div_iff₀ hd']
    exact_mod_cast hq1
  · rw [div_lt_iff₀ hd']
    exact_mod_cast hq2

/-- For a positive divisor `d`, the `(n + d - 1) / d` idiom computes the
rational ceiling. -/
theorem ceil_intCast_div (n d : ℤ) (hd : 0 < d) :
    ⌈(n : ℚ) / (d : ℚ)⌉ = (n + d - 1) / d := by
  have hd' : (0 : ℚ) < (d : ℚ) := by exact_mod_cast hd
  have hdq : d * ((n + d - 1) / d) + (n + d - 1) % d = n + d - 1 :=
    Int.ediv_add_emod _ d
  have h0 : 0 ≤ (n + d - 1) % d := Int.emod_nonneg _ (ne_of_gt hd)
  have h1 : (n + d - 1) % d < d := Int.emod_lt_of_pos _ hd
  have hub : n ≤ ((n + d - 1) / d) * d := by linarith
  have hlb : ((n + d - 1) / d - 1) * d < n := by linarith
  rw [Int.ceil_eq_iff]
  constructor
  · rw [show (((n + d - 1) / d : ℤ) : ℚ) - 1 =
        (((n + d - 1) / d - 1 : ℤ) : ℚ) by push_cast; ring,
      lt_div_iff₀ hd']
    exact_mod_cast hlb
  · rw [div_le_iff₀ hd']
    exact_mod_cast hub

/-- C1: for every `skip ≥ 0`, `total_records ≥ 0` and limit `L`, the list
endpoints compute `current_page = floor(skip / L) + 1` and
`total_pages = ceil(total_records / L)` when `L > 0`, and
`current_page = total_pages = 1` when `L = 0` — the falsy limit is
special-cased, never divided by. -/
theorem pagination_math (skip N L : ℤ) (_hs : 0 ≤ skip) (_hN : 0 ≤ N) :
    (0 < L →
      (paginationInfo skip L N).current_page = ⌊(skip : ℚ) / (L : ℚ)⌋ + 1 ∧
      (paginationInfo skip L N).total_pages = ⌈(N : ℚ) / (L : ℚ)⌉) ∧
    (L = 0 →
      (paginationInfo skip L N).current_page = 1 ∧
      (paginationInfo skip L N).total_pages = 1) := by
  constructor
  · intro hL
    have hL0 : L ≠ 0 := ne_of_gt hL
    constructor
    · show (if L ≠ 0 then Int.fdiv skip L + 1 else 1) = _
      rw [if_pos hL0, Int.fdiv_eq_ediv _ hL.le, floor_intCast_div skip L hL]
    · show (if L ≠ 0 then Int.fdiv (N + L - 1) L else 1) = _
      rw [if_pos hL0, Int.fdiv_eq_ediv _ hL.le, ceil_intCast_div N L hL]
  · intro hL
    subst hL
    exact ⟨rfl, rfl⟩

/-- Witness for C1 at `skip = 20`, `limit = 10`, `total_records = 95`
(pages 1-10, current page 3), and at the falsy limit. -/
theorem pagination_math_witness :
    ((0 : ℤ) ≤ 20 ∧ (0 : ℤ) ≤ 95 ∧ (0 : ℤ) < 10) ∧
    ((paginationInfo 20 10 95).current_page = ⌊(20 : ℚ) / (10 : ℚ)⌋ + 1 ∧
      (paginationInfo 20 10 95).total_pages = ⌈(95 : ℚ) / (10 : ℚ)⌉) ∧
    ((paginationInfo 20 10 95).current_page = 3 ∧
      (paginationInfo 20 10 95).total_pages = 10) ∧
    ((paginationInfo 7 0 95).current_page = 1 ∧
      (paginationInfo 7 0 95).total_pages = 1) :=
  ⟨⟨by norm_num, by norm_num, by norm_num⟩,
    (pagination_math 20 95 10 (by norm_num) (by norm_num)).1 (by norm_num),
    ⟨by decide, by decide⟩,
    (pagination_math 7 95 0 (by norm_num) (by norm_num)).2 rfl⟩

/-- C6 (amended): `next_page` is `None` exactly when
`current_page ≥ total_pages`, and equals `current_page + 1` exactly when
`current_page < total_pages`.  (When `skip` addresses a position beyond
the last page, `current_page > total_pages`, so `next_page` is `None`
even though `current_page ≠ total_pages`.) -/
theorem next_page_null_iff (skip limit total : ℤ) :
    ((paginationInfo skip limit total).next_page = none ↔
      (paginationInfo skip limit total).total_pages ≤
        (paginationInfo skip limit total).current_page) ∧
    ((paginationInfo skip limit total).next_page =
        some ((paginationInfo skip limit total).current_page + 1) ↔
      (paginationInfo skip limit total).current_page <
        (paginationInfo skip limit total).total_pages) := by
  simp only [paginationInfo]
  by_cases h : (if limit ≠ 0 then Int.fdiv skip limit + 1 else 1) <
      (if limit ≠ 0 then Int.fdiv (total + limit - 1) limit else 1)
  · simp [h]
  · simp [h]

/-- Counterexample to C6 as stated: at `skip = 20`, `limit = 10`,
`total_records = 10` the skip addresses a position beyond the last page;
`next_page` is `None` although `current_page = 3 ≠ 1 = total_pages`, so
"`next_page` is null iff `current_page` equals `total_pages`" fails. -/
theorem next_page_beyond_last_counterexample :
    (paginationInfo 20 10 10).next_page = none ∧
    (paginationInfo 20 10 10).current_page ≠
      (paginationInfo 20 10 10).total_pages := by
  decide

/-- The parser's inline boolean coercion agrees with the spec's
"`true`/`false` case-insensitively becomes a boolean". -/
theorem coerce_bool_eq (value : String) :
    (if pyLower value == "true" || pyLower value == "false"
      then FVal.bool (pyLower value == "true") else FVal.str value) =
    (if pyLower value == "true" then FVal.bool true
      else if pyLower value == "false" then FVal.bool false
      else FVal.str value) := by
  by_cases h1 : pyLower value == "true" <;>
    by_cases h2 : pyLower value == "false" <;> simp [h1, h2]

/-- The filter-parser fold, related clause by clause to
`filterClauseSpec`, for any starting accumulator, provided every clause
containing `'='` splits into exactly a field and a value (at most one
`'='`). -/
theorem parse_filter_fold (items : List String)
    (acc : List (String × FVal))
    (h : ∀ item ∈ items, pyContains item '=' = true →
      (pySplit item '=').length = 2) :
    items.foldlM
      (fun acc item =>
        if pyContains item '=' then
          match pySplit item '=' with
          | [field, value] =>
            let lv := pyLower value
            let v : FVal :=
              if lv == "true" || lv == "false" then .bool (lv == "true")
              else .str value
            some (dictInsert acc field v)
          | _ => none
        else
          some (dictInsert acc item (.str "item exist")))
      acc =
    some (items.foldl (fun a it =>
      dictInsert a (filterClauseSpec it).1 (filterClauseSpec it).2) acc) := by
  induction items generalizing acc with
  | nil => rfl
  | cons it rest ih =>
    rw [List.foldlM_cons, List.foldl_cons]
    by_cases hc : pyContains it '=' = true
    · obtain ⟨fld, v, hsp⟩ : ∃ fld v, pySplit it '=' = [fld, v] := by
        have hlen := h it (List.mem_cons_self _ _) hc
        match hpe : pySplit it '=' with
        | [] => rw [hpe] at hlen; simp at hlen
        | [a] => rw [hpe] at hlen; simp at hlen
        | [a, b] => exact ⟨a, b, rfl⟩
        | a :: b :: c :: l => rw [hpe] at hlen; simp at hlen
      have hfc : filterClauseSpec it =
          (fld, if pyLower v == "true" then FVal.bool true
            else if pyLower v == "false" then FVal.bool false
            else FVal.str v) := by
        rw [filterClauseSpec, if_pos hc, hsp]
      rw [hfc, if_pos hc, hsp]
      simp only [Option.some_bind]
      rw [← coerce_bool_eq v]
      exact ih _ (fun item hm => h item (List.mem_cons_of_mem _ hm))
    · have hc' : pyContains it '=' = false := by simpa using hc
      have hfc : filterClauseSpec it = (it, FVal.str "item exist") := by
        rw [filterClauseSpec, if_neg (by simp [hc'])]
      rw [hfc, if_neg (by simp [hc'])]
      simp only [Option.some_bind]
      exact ih _ (fun item hm => h item (List.mem_cons_of_mem _ hm))

/-- Folding Python-dict insertions of pairwise-distinct keys that are also
new to the accumulator appends them in order. -/
theorem foldl_dictInsert_nodup {β : Type} (ps : List (String × β))
    (acc : List (String × β))
    (hdisj : ∀ p ∈ ps, ∀ q ∈ acc, p.1 ≠ q.1)
    (hnd : (ps.map Prod.fst).Nodup) :
    ps.foldl (fun a p => dictInsert a p.1 p.2) acc = acc ++ ps := by
  induction ps generalizing acc with
  | nil => simp
  | cons p rest ih =>
    rw [List.map_cons, List.nodup_cons] at hnd
    rw [List.foldl_cons]
    have hnotin : (acc.any (fun q => q.1 == p.1)) = false := by
      rw [List.any_eq_false]
      intro q hq
      simpa using (hdisj p (List.mem_cons_self _ _) q hq).symm
    rw [show dictInsert acc p.1 p.2 = acc ++ [(p.1, p.2)] by
      rw [dictInsert, if_neg (by simp [hnotin])]]
    rw [ih (acc ++ [(p.1, p.2)]) ?_ hnd.2]
    · simp
    · intro r hr q hq
      rcases List.mem_append.mp hq with hq1 | hq2
      · exact hdisj r (List.mem_cons_of_mem _ hr) q hq1
      · have : q = (p.1, p.2) := by simpa using hq2
        subst this
        intro hcontra
        exact hnd.1 (hcontra ▸ List.mem_map_of_mem Prod.fst hr)

/-- C8: for every comma-separated filter string whose clauses each contain
at most one `'='` (each clause with an `'='` splits into exactly a field
and a value), `parse_filter_param` returns the ordered mapping obtained by
inserting, in clause order, exactly the clause translation the spec
describes (`filterClauseSpec`: case-insensitive `true`/`false` become
booleans, a bare clause becomes the sentinel `"item exist"`, anything else
stays a string); when the clause fields are pairwise distinct the result
is literally the clause list in given order. -/
theorem parse_filter_param_matches_spec (query : String)
    (h : ∀ item ∈ pySplit query ',', pyContains item '=' = true →
      (pySplit item '=').length = 2) :
    parse_filter_param query =
      some (orderedMapOf ((pySplit query ',').map filterClauseSpec)) ∧
    ((((pySplit query ',').map filterClauseSpec).map Prod.fst).Nodup →
      parse_filter_param query =
        some ((pySplit query ',').map filterClauseSpec)) := by
  have h1 := parse_filter_fold (pySplit query ',') [] h
  have heq : parse_filter_param query =
      some (orderedMapOf ((pySplit query ',').map filterClauseSpec)) := by
    rw [orderedMapOf, List.foldl_map]
    exact h1
  refine ⟨heq, fun hnd => ?_⟩
  rw [heq, orderedMapOf,
    foldl_dictInsert_nodup ((pySplit query ',').map filterClauseSpec) []
      (by simp) hnd]
  simp

/-- Witness for C8 on the concrete query
`active=TRUE,name=foo,description`: all clauses have at most one `'='`
and distinct fields, and the parsed mapping is the clause-by-clause
translation in order. -/
theorem parse_filter_param_matches_spec_witness :
    (∀ item ∈ pySplit "active=TRUE,name=foo,description" ',',
      pyContains item '=' = true →
        (pySplit item '=').length = 2) ∧
    parse_filter_param "active=TRUE,name=foo,description" =
      some ((pySplit "active=TRUE,name=foo,description" ',').map
        filterClauseSpec) ∧
    parse_filter_param "active=TRUE,name=foo,description" =
      some [("active", FVal.bool true), ("name", FVal.str "foo"),
        ("description", FVal.str "item exist")] :=
  ⟨by decide,
   (parse_filter_param_matches_spec "active=TRUE,name=foo,description"
      (by decide)).2 (by decide),
   by decide⟩

/-- C9: the parsers are not total: a clause with more than one `'='`
(here `a=b=c`) makes the two-element unpacking of `item.split('=')` fail,
an unhandled `ValueError` (modelled as `none`) — neither a parsed mapping
nor a structured 400 `HTTPException` is produced. -/
theorem parser_unpack_failure :
    parse_filter_param "a=b=c" = none ∧ parse_sort_param "a=b=c" = none := by
  decide
